import Mathlib

/-!
Verification of the scoped MCP server-configuration engine in
`crates/chat-cli/src/cli/mcp.rs`.

The embedding models the file system explicitly: an `FS` value carries the
state of every configuration file (absent, malformed, or a decoded registry)
plus which profile directories exist.  Every mutation command from `mcp.rs`
becomes a state transformer `FS → FS × Except McpError α` that mirrors the
source control flow statement by statement; `bail!` becomes an `.error`
result that leaves the already-accumulated file-system effects in place.

The aggregation function `get_mcp_server_configs` additionally returns the
list of locations it actually read (each call to
`load_config_with_error_handling` appends its path), so that claims about
scopes being or not being read are expressible.
-/

namespace McpVerify

/-- The `Scope` enum from mcp.rs: `Workspace | Global | Profile`. -/
inductive Scope
  | workspace
  | global
  | profile
deriving DecidableEq, Repr

/-- One server definition (`CustomToolConfig` from custom_tool.rs): launch
command, arguments, optional environment, timeout in milliseconds, disabled
flag. -/
structure CustomToolConfig where
  command : String
  args : List String
  env : Option (List (String × String))
  timeout : Nat
  disabled : Bool
deriving DecidableEq, Repr

/-- One scope's configuration document (`McpServerConfig` from
tool_manager.rs): a name-keyed map of server definitions (modelled as an
association list preserving iteration order) plus the
`use_profile_servers_only` exclusivity flag. -/
structure McpServerConfig where
  mcp_servers : List (String × CustomToolConfig)
  use_profile_servers_only : Bool
deriving DecidableEq, Repr

/-- The empty default registry (`McpServerConfig::default()`). -/
def McpServerConfig.default : McpServerConfig :=
  { mcp_servers := [], use_profile_servers_only := false }

/-- Association-list lookup, first match wins (map lookup by server name). -/
def lookupKV {α : Type} : List (String × α) → String → Option α
  | [], _ => none
  | (k, v) :: rest, key => if k = key then some v else lookupKV rest key

/-- Key membership (`contains_key`). -/
def containsKey {α : Type} (l : List (String × α)) (key : String) : Bool :=
  (lookupKV l key).isSome

/-- Map insert (`insert`): overwrite in place when the key exists, append
otherwise. -/
def insertKV {α : Type} : List (String × α) → String → α → List (String × α)
  | [], key, v => [(key, v)]
  | (k, w) :: rest, key, v =>
    if k = key then (key, v) :: rest else (k, w) :: insertKV rest key v

/-- Map removal (`remove`): drop the first entry with the given key. -/
def removeKey {α : Type} : List (String × α) → String → List (String × α)
  | [], _ => []
  | (k, w) :: rest, key => if k = key then rest else (k, w) :: removeKey rest key

/-- The keys of an association list, in order. -/
def keys {α : Type} (l : List (String × α)) : List String := l.map Prod.fst

/-- A canonical configuration-file location.  The three scope paths are
distinct opaque locations; `ext` stands for any other path, such as a
source file named on the command line for Import. -/
inductive Location
  | ws
  | gl
  | prof (name : String)
  | ext (path : String)
deriving DecidableEq, Repr

/-- Modelled from the spec: `workspace_mcp_config_path` (tool_manager.rs, not
among the sources) — the fixed path under the workspace tool-config area. -/
def workspace_mcp_config_path : Location := .ws

/-- Modelled from the spec: `global_mcp_config_path` (tool_manager.rs, not
among the sources) — the fixed path under the user-global config area. -/
def global_mcp_config_path : Location := .gl

/-- Modelled from the spec: `profile_mcp_path` (tool_manager.rs, not among
the sources) — the path inside the named profile's configuration directory. -/
def profile_mcp_path (name : String) : Location := .prof name

/-- The state of one file: missing, present but undecodable, or a decoded
registry document. -/
inductive FileState
  | absent
  | malformed
  | valid (cfg : McpServerConfig)
deriving DecidableEq, Repr

/-- Lookup of a file state in the file table; unlisted locations are absent. -/
def lookupFileAux : List (Location × FileState) → Location → FileState
  | [], _ => .absent
  | (q, st) :: rest, p => if q = p then st else lookupFileAux rest p

/-- Write a file state into the file table. -/
def setFileAux : List (Location × FileState) → Location → FileState → List (Location × FileState)
  | [], p, st => [(p, st)]
  | (q, st0) :: rest, p, st =>
    if q = p then (p, st) :: rest else (q, st0) :: setFileAux rest p st

/-- The external file system observed by this engine: the state of every
configuration file, and which profile backing directories exist. -/
structure FS where
  files : List (Location × FileState)
  profileDirs : List String
deriving DecidableEq, Repr

/-- The state of the file at a location. -/
def FS.file (fs : FS) (p : Location) : FileState := lookupFileAux fs.files p

/-- `os.fs.exists(path)`: a malformed file exists; an absent one does not. -/
def FS.fileExists (fs : FS) (p : Location) : Bool :=
  match fs.file p with
  | .absent => false
  | _ => true

/-- Modelled from the spec: `FileSystem.createDirAll` restricted to the one
directory this model observes — a profile's backing directory (the parent of
`profile_mcp_path`).  Creating any other parent directory is unobservable. -/
def FS.create_dir_all_profile (fs : FS) (name : String) : FS :=
  { fs with
    profileDirs := if fs.profileDirs.contains name then fs.profileDirs else name :: fs.profileDirs }

/-- Directory creation for the parent of a location: observable only for
profile paths. -/
def FS.create_parent_dirs (fs : FS) (p : Location) : FS :=
  match p with
  | .prof name => fs.create_dir_all_profile name
  | _ => fs

/-- The error taxonomy raised by mcp.rs (`bail!` / `eyre!` sites), with the
data each message carries. -/
inductive McpError
  | duplicateServer (name : String) (path : Location) (scope : Scope)
  | decodeError (path : Location)
  | missingFile (path : Location)
  | missingProfileName
  | profileNotFound (name : String)
deriving DecidableEq, Repr

/-- Modelled from the spec: `McpServerConfig::load_from_file`
(tool_manager.rs, not among the sources) reads and decodes the document at a
location; a missing file or a malformed document is an error. -/
def McpServerConfig.load_from_file (fs : FS) (p : Location) : Except McpError McpServerConfig :=
  match fs.file p with
  | .absent => .error (.missingFile p)
  | .malformed => .error (.decodeError p)
  | .valid cfg => .ok cfg

/-- Modelled from the spec: `McpServerConfig::save_to_file` (tool_manager.rs,
not among the sources) serializes the registry and writes it to the
location. -/
def McpServerConfig.save_to_file (cfg : McpServerConfig) (fs : FS) (p : Location) : FS :=
  { fs with files := setFileAux fs.files p (.valid cfg) }

/-- `resolve_scope_profile` (mcp.rs): `Some(Global)` and `Some(Profile)` map
to their paths — Profile requiring a profile name — and every other case
(explicit Workspace or no scope at all) falls to the workspace path. -/
def resolve_scope_profile (scope : Option Scope) (profile : Option String) :
    Except McpError Location :=
  match scope with
  | some .global => .ok global_mcp_config_path
  | some .profile =>
    match profile with
    | none => .error .missingProfileName
    | some name => .ok (profile_mcp_path name)
  | _ => .ok workspace_mcp_config_path

/-- `load_config_with_error_handling` (mcp.rs): if the file exists, a decode
failure is contained — warned about and turned into `none` — and a missing
file is also `none`. -/
def load_config_with_error_handling (fs : FS) (path : Location) : Option McpServerConfig :=
  if fs.fileExists path then
    match McpServerConfig.load_from_file fs path with
    | .ok cfg => some cfg
    | .error _ => none
  else none

/-- The exclusivity test inside the aggregation loop: a Profile-scoped entry
whose registry loaded successfully with `use_profile_servers_only` set. -/
def profileExclusive (scope_type : Scope) (cfg_opt : Option McpServerConfig) : Bool :=
  match scope_type, cfg_opt with
  | .profile, some cfg => cfg.use_profile_servers_only
  | _, _ => false

/-- The `for (scope_type, profile_name) in scopes_to_load` loop of
`get_mcp_server_configs`: load each candidate in order, short-circuiting the
moment a Profile registry loads with the exclusivity flag set.  The second
component records each location passed to `load_config_with_error_handling`,
i.e. the locations actually read. -/
def aggregateLoop (fs : FS) :
    List (Scope × Option String) →
    Except McpError (List (Scope × Location × Option McpServerConfig) × List Location)
  | [] => .ok ([], [])
  | (scope_type, profile_name) :: rest =>
    match resolve_scope_profile (some scope_type) profile_name with
    | .error e => .error e
    | .ok path =>
      let cfg_opt := load_config_with_error_handling fs path
      if profileExclusive scope_type cfg_opt then
        .ok ([(scope_type, path, cfg_opt)], [path])
      else
        match aggregateLoop fs rest with
        | .error e => .error e
        | .ok (entries, reads) => .ok ((scope_type, path, cfg_opt) :: entries, path :: reads)

/-- `get_mcp_server_configs` (mcp.rs): an explicit scope is loaded alone;
otherwise the candidates are Profile (only when a profile name was given),
then Workspace, then Global, run through `aggregateLoop`.  The second
component is the list of locations read. -/
def get_mcp_server_configs (fs : FS) (scope : Option Scope) (profile : Option String) :
    Except McpError (List (Scope × Location × Option McpServerConfig) × List Location) :=
  match scope with
  | some requested_scope =>
    match resolve_scope_profile (some requested_scope) profile with
    | .error e => .error e
    | .ok path => .ok ([(requested_scope, path, load_config_with_error_handling fs path)], [path])
  | none =>
    let scopes_to_load :=
      (match profile with
       | some profile_name => [(Scope.profile, some profile_name)]
       | none => []) ++ [(Scope.workspace, none), (Scope.global, none)]
    aggregateLoop fs scopes_to_load

/-- `load_cfg` (mcp.rs): load the file when it exists — propagating decode
errors with `?` — and return the default registry when it does not. -/
def load_cfg (fs : FS) (p : Location) : Except McpError McpServerConfig :=
  if fs.fileExists p then McpServerConfig.load_from_file fs p
  else .ok McpServerConfig.default

/-- `ensure_config_file` (mcp.rs): when the file is missing, create its
parent directories and persist an empty default registry there; then
`load_cfg`.  Returns the possibly-extended file system together with the
load result. -/
def ensure_config_file (fs : FS) (path : Location) : FS × Except McpError McpServerConfig :=
  let fs1 :=
    if fs.fileExists path then fs
    else McpServerConfig.default.save_to_file (fs.create_parent_dirs path) path
  (fs1, load_cfg fs1 path)

/-- Modelled from the spec: `default_timeout` (custom_tool.rs, not among the
sources) — the fixed fallback timeout constant in milliseconds. -/
def default_timeout : Nat := 120000

/-- Merge the repeated `--env` maps of Add: flatten, later bindings
overwriting earlier ones, as collecting into a single map does. -/
def mergeEnvs (envs : List (List (String × String))) : List (String × String) :=
  envs.flatten.foldl (fun acc kv => insertKV acc kv.1 kv.2) []

/-- `AddArgs` (mcp.rs), with the environment kept as the parsed list of
maps. -/
structure AddArgs where
  name : String
  command : String
  args : List String
  scope : Option Scope
  profile : Option String
  env : List (List (String × String))
  timeout : Option Nat
  disabled : Bool
  force : Bool
deriving DecidableEq, Repr

/-- `AddArgs::execute` (mcp.rs): resolve the target, ensure its file, fail
with the duplicate-server error when the name is present and `force` is off,
otherwise insert the constructed tool definition and persist. -/
def AddArgs.execute (self : AddArgs) (fs : FS) : FS × Except McpError Unit :=
  let scope := self.scope.getD Scope.workspace
  match resolve_scope_profile self.scope self.profile with
  | .error e => (fs, .error e)
  | .ok config_path =>
    match ensure_config_file fs config_path with
    | (fs1, .error e) => (fs1, .error e)
    | (fs1, .ok config) =>
      if containsKey config.mcp_servers self.name && !self.force then
        (fs1, .error (.duplicateServer self.name config_path scope))
      else
        let merged_env := mergeEnvs self.env
        let tool : CustomToolConfig :=
          { command := self.command
            args := self.args
            env := some merged_env
            timeout := self.timeout.getD default_timeout
            disabled := self.disabled }
        let config := { config with mcp_servers := insertKV config.mcp_servers self.name tool }
        (config.save_to_file fs1 config_path, .ok ())

/-- The user-visible outcome of Remove: a removal, a non-fatal
name-not-found report, or the nothing-to-remove report for a missing file. -/
inductive RemoveOutcome
  | removed
  | nameNotFound
  | nothingToRemove
deriving DecidableEq, Repr

/-- `RemoveArgs` (mcp.rs). -/
structure RemoveArgs where
  name : String
  scope : Option Scope
  profile : Option String
deriving DecidableEq, Repr

/-- `RemoveArgs::execute` (mcp.rs): missing target file reports
nothing-to-remove without error; otherwise load (decode errors propagate),
remove the name when present and persist, or report not-found without
writing. -/
def RemoveArgs.execute (self : RemoveArgs) (fs : FS) : FS × Except McpError RemoveOutcome :=
  match resolve_scope_profile self.scope self.profile with
  | .error e => (fs, .error e)
  | .ok config_path =>
    if !fs.fileExists config_path then (fs, .ok .nothingToRemove)
    else
      match McpServerConfig.load_from_file fs config_path with
      | .error e => (fs, .error e)
      | .ok config =>
        match lookupKV config.mcp_servers self.name with
        | some _ =>
          let config := { config with mcp_servers := removeKey config.mcp_servers self.name }
          (config.save_to_file fs config_path, .ok .removed)
        | none => (fs, .ok .nameNotFound)

/-- `ImportArgs` (mcp.rs); the `file` argument is kept as the already
expanded source location. -/
structure ImportArgs where
  file : Location
  scope : Option Scope
  profile : Option String
  force : Bool
deriving DecidableEq, Repr

/-- The `for (name, cfg) in src_cfg.mcp_servers` loop of
`ImportArgs::execute`: bail at the first name already present in the
destination when `force` is off, otherwise insert each entry and count it. -/
def importLoop (force : Bool) (config_path : Location) (scope : Scope) :
    List (String × CustomToolConfig) → List (String × CustomToolConfig) → Nat →
    Except McpError (List (String × CustomToolConfig) × Nat)
  | dst, [], added => .ok (dst, added)
  | dst, (name, cfg) :: rest, added =>
    if containsKey dst name && !force then
      .error (.duplicateServer name config_path scope)
    else importLoop force config_path scope (insertKV dst name cfg) rest (added + 1)

/-- `ImportArgs::execute` (mcp.rs): resolve and ensure the destination
first, then load the source (errors terminal), then run the merge loop and
persist the merged registry once. -/
def ImportArgs.execute (self : ImportArgs) (fs : FS) : FS × Except McpError Nat :=
  let scope := self.scope.getD Scope.workspace
  match resolve_scope_profile self.scope self.profile with
  | .error e => (fs, .error e)
  | .ok config_path =>
    match ensure_config_file fs config_path with
    | (fs1, .error e) => (fs1, .error e)
    | (fs1, .ok dst_cfg) =>
      match McpServerConfig.load_from_file fs1 self.file with
      | .error e => (fs1, .error e)
      | .ok src_cfg =>
        match importLoop self.force config_path scope dst_cfg.mcp_servers src_cfg.mcp_servers 0 with
        | .error e => (fs1, .error e)
        | .ok (merged, added) =>
          let dst_cfg := { dst_cfg with mcp_servers := merged }
          (dst_cfg.save_to_file fs1 config_path, .ok added)

/-- `UseProfileServersOnlyArgs` (mcp.rs). -/
structure UseProfileServersOnlyArgs where
  profile : String
  value : Bool
deriving DecidableEq, Repr

/-- `UseProfileServersOnlyArgs::execute` (mcp.rs): fail with
profile-not-found when the profile's backing directory is missing; otherwise
load the profile registry (containing a decode failure as the default),
set the exclusivity flag, create the parent directory and persist. -/
def UseProfileServersOnlyArgs.execute (self : UseProfileServersOnlyArgs) (fs : FS) :
    FS × Except McpError Unit :=
  let path := profile_mcp_path self.profile
  if !fs.profileDirs.contains self.profile then
    (fs, .error (.profileNotFound self.profile))
  else
    let config :=
      if fs.fileExists path then
        match McpServerConfig.load_from_file fs path with
        | .ok config => config
        | .error _ => McpServerConfig.default
      else McpServerConfig.default
    let config := { config with use_profile_servers_only := self.value }
    let fs1 := fs.create_dir_all_profile self.profile
    (config.save_to_file fs1 path, .ok ())

/-- The first source entry name, in iteration order, that already exists in
the destination map — the name at which the import loop bails. -/
def firstConflict (dst : List (String × CustomToolConfig)) :
    List (String × CustomToolConfig) → Option String
  | [] => none
  | (name, _) :: rest => if containsKey dst name then some name else firstConflict dst rest

/-- Folding every source entry into the destination in iteration order, as
the force-import loop does. -/
def mergeAll (dst src : List (String × CustomToolConfig)) : List (String × CustomToolConfig) :=
  src.foldl (fun d kv => insertKV d kv.1 kv.2) dst

/-- A minimal concrete server definition used by witness statements. -/
def toolW (c : String) : CustomToolConfig :=
  { command := c, args := [], env := none, timeout := 1, disabled := false }

/-- A concrete one-server non-exclusive registry used by witness statements. -/
def regW (n c : String) : McpServerConfig :=
  { mcp_servers := [(n, toolW c)], use_profile_servers_only := false }

/-- A concrete file system with one registry per scope, used by witness
statements. -/
def fsThree : FS :=
  { files := [(Location.prof "p", .valid (regW "p1" "cp")),
              (Location.ws, .valid (regW "w1" "cw")),
              (Location.gl, .valid (regW "g1" "cg"))],
    profileDirs := ["p"] }

/-- `profileExclusive` never fires on the Workspace scope. -/
theorem profileExclusive_workspace (c : Option McpServerConfig) :
    profileExclusive Scope.workspace c = false := by cases c <;> rfl

/-- `profileExclusive` never fires on the Global scope. -/
theorem profileExclusive_global (c : Option McpServerConfig) :
    profileExclusive Scope.global c = false := by cases c <;> rfl

/-- Claim C1: when the Profile-scoped registry of profile `p` loads
successfully with its exclusive flag set, `aggregate(None, Some(p))` returns
exactly the one Profile entry, and the only location read is the profile
path — Workspace and Global are never read. -/
theorem aggregate_exclusive_short_circuit (fs : FS) (p : String) (cfg : McpServerConfig)
    (hfile : fs.file (profile_mcp_path p) = .valid cfg)
    (hexcl : cfg.use_profile_servers_only = true) :
    get_mcp_server_configs fs none (some p) =
      .ok ([(Scope.profile, profile_mcp_path p, some cfg)], [profile_mcp_path p]) := by
  simp [get_mcp_server_configs, aggregateLoop, resolve_scope_profile,
        load_config_with_error_handling, FS.fileExists, McpServerConfig.load_from_file,
        profileExclusive, hfile, hexcl]

/-- Witness for C1 at a concrete file system holding one exclusive profile
registry. -/
theorem aggregate_exclusive_short_circuit_witness :
    get_mcp_server_configs
      { files := [(Location.prof "p",
                   FileState.valid { mcp_servers := [], use_profile_servers_only := true })],
        profileDirs := ["p"] }
      none (some "p") =
      .ok ([(Scope.profile, profile_mcp_path "p",
             some { mcp_servers := [], use_profile_servers_only := true })],
           [profile_mcp_path "p"]) :=
  aggregate_exclusive_short_circuit _ "p" _ (by decide) rfl

/-- Claim C6: when the Profile-scoped registry of `p` is absent, fails to
decode, or has its exclusive flag off, `aggregate(None, Some(p))` returns
exactly three entries in the order Profile, Workspace, Global, each paired
with its own location and its own loaded-or-absent registry, never merged. -/
theorem aggregate_non_exclusive_three_entries (fs : FS) (p : String)
    (h : fs.file (profile_mcp_path p) = .absent ∨
         fs.file (profile_mcp_path p) = .malformed ∨
         ∃ cfg, fs.file (profile_mcp_path p) = .valid cfg ∧
           cfg.use_profile_servers_only = false) :
    get_mcp_server_configs fs none (some p) =
      .ok ([(Scope.profile, profile_mcp_path p,
             load_config_with_error_handling fs (profile_mcp_path p)),
            (Scope.workspace, workspace_mcp_config_path,
             load_config_with_error_handling fs workspace_mcp_config_path),
            (Scope.global, global_mcp_config_path,
             load_config_with_error_handling fs global_mcp_config_path)],
           [profile_mcp_path p, workspace_mcp_config_path, global_mcp_config_path]) := by
  have hexcl : profileExclusive Scope.profile
      (load_config_with_error_handling fs (profile_mcp_path p)) = false := by
    rcases h with h | h | ⟨cfg, hc, hf⟩
    · simp [load_config_with_error_handling, FS.fileExists, h, profileExclusive]
    · simp [load_config_with_error_handling, FS.fileExists,
            McpServerConfig.load_from_file, h, profileExclusive]
    · simp [load_config_with_error_handling, FS.fileExists,
            McpServerConfig.load_from_file, hc, profileExclusive, hf]
  simp [get_mcp_server_configs, aggregateLoop, resolve_scope_profile, hexcl,
        profileExclusive_workspace, profileExclusive_global]

/-- Witness for C6 at a concrete file system with a non-exclusive profile
registry and distinct workspace and global registries. -/
theorem aggregate_non_exclusive_three_entries_witness :
    get_mcp_server_configs fsThree none (some "p") =
      .ok ([(Scope.profile, profile_mcp_path "p", some (regW "p1" "cp")),
            (Scope.workspace, workspace_mcp_config_path, some (regW "w1" "cw")),
            (Scope.global, global_mcp_config_path, some (regW "g1" "cg"))],
           [profile_mcp_path "p", workspace_mcp_config_path, global_mcp_config_path]) := by
  have h := aggregate_non_exclusive_three_entries fsThree "p"
    (Or.inr (Or.inr ⟨regW "p1" "cp", by decide, rfl⟩))
  rw [h]
  rfl

/-- Claim C9: with no explicit scope, resolution yields the workspace path —
identical to an explicit Workspace request — and the supplied profile name is
ignored, so Add, Remove and Import with a profile name but no scope operate
on the workspace file. -/
theorem default_scope_resolves_workspace (p : String) (fs : FS) :
    resolve_scope_profile none (some p) = .ok workspace_mcp_config_path ∧
    resolve_scope_profile none (some p) = resolve_scope_profile (some Scope.workspace) none ∧
    (∀ a : AddArgs, a.scope = none →
      a.execute fs = { a with scope := some Scope.workspace, profile := none }.execute fs) ∧
    (∀ r : RemoveArgs, r.scope = none →
      r.execute fs = { r with scope := some Scope.workspace, profile := none }.execute fs) ∧
    (∀ i : ImportArgs, i.scope = none →
      i.execute fs = { i with scope := some Scope.workspace, profile := none }.execute fs) := by
  refine ⟨rfl, rfl, ?_, ?_, ?_⟩
  · intro a ha
    simp [AddArgs.execute, resolve_scope_profile, ha]
  · intro r hr
    simp [RemoveArgs.execute, resolve_scope_profile, hr]
  · intro i hi
    simp [ImportArgs.execute, resolve_scope_profile, hi]

/-- Witness for C9: a Remove with a profile name but no scope behaves as an
explicit Workspace request on a concrete file system. -/
theorem default_scope_resolves_workspace_witness :
    RemoveArgs.execute { name := "w1", scope := none, profile := some "p" } fsThree =
      RemoveArgs.execute { name := "w1", scope := some Scope.workspace, profile := none }
        fsThree :=
  (default_scope_resolves_workspace "p" fsThree).2.2.2.1
    { name := "w1", scope := none, profile := some "p" } rfl

/-- Claim C3: Add of a name already present in the target registry with
`force` off fails with the duplicate-server error and performs no write —
the resulting file system is exactly the one before the call. -/
theorem add_duplicate_no_write (fs : FS) (a : AddArgs) (path : Location)
    (cfg : McpServerConfig)
    (hresolve : resolve_scope_profile a.scope a.profile = .ok path)
    (hfile : fs.file path = .valid cfg)
    (hdup : containsKey cfg.mcp_servers a.name = true)
    (hforce : a.force = false) :
    a.execute fs =
      (fs, .error (.duplicateServer a.name path (a.scope.getD Scope.workspace))) := by
  have hex : fs.fileExists path = true := by simp [FS.fileExists, hfile]
  have hload : McpServerConfig.load_from_file fs path = .ok cfg := by
    simp [McpServerConfig.load_from_file, hfile]
  have hens : ensure_config_file fs path = (fs, .ok cfg) := by
    simp [ensure_config_file, hex, load_cfg, hload]
  simp [AddArgs.execute, hresolve, hens, hdup, hforce]

/-- Witness for C3 at a concrete workspace registry already containing the
added name. -/
theorem add_duplicate_no_write_witness :
    AddArgs.execute
      { name := "p1", command := "c", args := [], scope := none, profile := none,
        env := [], timeout := none, disabled := false, force := false }
      { files := [(Location.ws, .valid (regW "p1" "cp"))], profileDirs := [] } =
      ({ files := [(Location.ws, .valid (regW "p1" "cp"))], profileDirs := [] },
       .error (.duplicateServer "p1" Location.ws Scope.workspace)) :=
  add_duplicate_no_write _ _ Location.ws (regW "p1" "cp") rfl rfl (by decide) rfl

/-- Claim C7: SetExclusivity fails with profile-not-found and touches
nothing when the profile's backing directory is missing; when it exists, the
registry is loaded (or defaulted), the exclusivity flag set to the requested
value, and the result persisted to the Profile-scoped location. -/
theorem set_exclusivity_profile_dir (fs : FS) (u : UseProfileServersOnlyArgs) :
    (fs.profileDirs.contains u.profile = false →
      u.execute fs = (fs, .error (.profileNotFound u.profile))) ∧
    (fs.profileDirs.contains u.profile = true →
      ∃ base : McpServerConfig,
        (base = McpServerConfig.default ∨
          fs.file (profile_mcp_path u.profile) = .valid base) ∧
        u.execute fs =
          (({ base with use_profile_servers_only := u.value }).save_to_file
              (fs.create_dir_all_profile u.profile) (profile_mcp_path u.profile),
           .ok ())) := by
  constructor
  · intro h
    have h' : u.profile ∉ fs.profileDirs := by simpa using h
    simp [UseProfileServersOnlyArgs.execute, h']
  · intro h
    have h' : u.profile ∈ fs.profileDirs := by simpa using h
    cases hfs : fs.file (profile_mcp_path u.profile) with
    | absent =>
      exact ⟨McpServerConfig.default, Or.inl rfl,
        by simp [UseProfileServersOnlyArgs.execute, h', FS.fileExists, hfs]⟩
    | malformed =>
      exact ⟨McpServerConfig.default, Or.inl rfl,
        by simp [UseProfileServersOnlyArgs.execute, h', FS.fileExists,
                 McpServerConfig.load_from_file, hfs]⟩
    | valid cfg =>
      exact ⟨cfg, Or.inr rfl,
        by simp [UseProfileServersOnlyArgs.execute, h', FS.fileExists,
                 McpServerConfig.load_from_file, hfs]⟩

/-- Witness for C7: on an empty file system the profile directory is
missing, so SetExclusivity fails and creates no file. -/
theorem set_exclusivity_profile_dir_witness :
    UseProfileServersOnlyArgs.execute { profile := "q", value := true }
      { files := [], profileDirs := [] } =
      ({ files := [], profileDirs := [] }, .error (.profileNotFound "q")) :=
  (set_exclusivity_profile_dir { files := [], profileDirs := [] }
    { profile := "q", value := true }).1 rfl

/-- Claim C8: Remove of an absent name succeeds with the non-fatal
not-found outcome and writes nothing; a missing target file yields the
nothing-to-remove report without error; and the file system changes only
when a removal actually occurred. -/
theorem remove_not_found_frame (fs : FS) (r : RemoveArgs) (path : Location)
    (hresolve : resolve_scope_profile r.scope r.profile = .ok path) :
    (fs.fileExists path = false → r.execute fs = (fs, .ok .nothingToRemove)) ∧
    (∀ cfg, fs.file path = .valid cfg → lookupKV cfg.mcp_servers r.name = none →
      r.execute fs = (fs, .ok .nameNotFound)) ∧
    (∀ fs1 out, r.execute fs = (fs1, out) → fs1 ≠ fs →
      ∃ cfg tool, fs.file path = .valid cfg ∧
        lookupKV cfg.mcp_servers r.name = some tool ∧ out = .ok .removed) := by
  refine ⟨?_, ?_, ?_⟩
  · intro hex
    simp [RemoveArgs.execute, hresolve, hex]
  · intro cfg hfile hlook
    have hex : fs.fileExists path = true := by simp [FS.fileExists, hfile]
    simp [RemoveArgs.execute, hresolve, hex, McpServerConfig.load_from_file, hfile, hlook]
  · intro fs1 out hexec hne
    by_cases hex : fs.fileExists path = true
    · cases hfs : fs.file path with
      | absent => simp [FS.fileExists, hfs] at hex
      | malformed =>
        have heq : r.execute fs = (fs, .error (.decodeError path)) := by
          simp [RemoveArgs.execute, hresolve, hex, McpServerConfig.load_from_file, hfs]
        rw [heq] at hexec
        exact absurd (congrArg Prod.fst hexec) (fun hcontra => hne hcontra.symm)
      | valid cfg =>
        cases hlook : lookupKV cfg.mcp_servers r.name with
        | none =>
          have heq : r.execute fs = (fs, .ok .nameNotFound) := by
            simp [RemoveArgs.execute, hresolve, hex, McpServerConfig.load_from_file,
                  hfs, hlook]
          rw [heq] at hexec
          exact absurd (congrArg Prod.fst hexec) (fun hcontra => hne hcontra.symm)
        | some tool =>
          have heq : r.execute fs =
              (({ cfg with
                  mcp_servers := removeKey cfg.mcp_servers r.name }).save_to_file fs path,
               .ok .removed) := by
            simp [RemoveArgs.execute, hresolve, hex, McpServerConfig.load_from_file,
                  hfs, hlook]
          rw [heq] at hexec
          exact ⟨cfg, tool, rfl, hlook, (congrArg Prod.snd hexec).symm⟩
    · have hex' : fs.fileExists path = false := by simpa using hex
      have heq : r.execute fs = (fs, .ok .nothingToRemove) := by
        simp [RemoveArgs.execute, hresolve, hex']
      rw [heq] at hexec
      exact absurd (congrArg Prod.fst hexec) (fun hcontra => hne hcontra.symm)

/-- Witness for C8: removing an absent name from a concrete workspace
registry leaves the file system untouched with the not-found outcome. -/
theorem remove_not_found_frame_witness :
    RemoveArgs.execute { name := "zz", scope := none, profile := none } fsThree =
      (fsThree, .ok .nameNotFound) :=
  (remove_not_found_frame fsThree { name := "zz", scope := none, profile := none }
      Location.ws rfl).2.1 (regW "w1" "cw") rfl (by decide)

/-- Lookup after an overwrite-or-append insert. -/
theorem lookupKV_insertKV {α : Type} (l : List (String × α)) (k key : String) (v : α) :
    lookupKV (insertKV l k v) key = if k = key then some v else lookupKV l key := by
  induction l with
  | nil => simp [insertKV, lookupKV]
  | cons hd tl ih =>
    obtain ⟨k0, v0⟩ := hd
    by_cases h0 : k0 = k <;> by_cases hk : k = key <;>
      simp_all [insertKV, lookupKV]

/-- The keys of a cons. -/
theorem keys_cons {α : Type} (k : String) (v : α) (tl : List (String × α)) :
    keys ((k, v) :: tl) = k :: keys tl := rfl

/-- A key outside the key list is not found. -/
theorem lookupKV_eq_none_of_not_mem_keys {α : Type} (l : List (String × α)) (key : String)
    (h : key ∉ keys l) : lookupKV l key = none := by
  induction l with
  | nil => rfl
  | cons hd tl ih =>
    obtain ⟨k, v⟩ := hd
    rw [keys_cons] at h
    simp only [List.mem_cons, not_or] at h
    simp [lookupKV, Ne.symm h.1, ih h.2]

/-- Inserting a name that does not occur among the source keys does not
change which source entry conflicts first. -/
theorem firstConflict_insertKV (src : List (String × CustomToolConfig))
    (dst : List (String × CustomToolConfig)) (name : String) (cfg : CustomToolConfig)
    (hnm : name ∉ keys src) :
    firstConflict (insertKV dst name cfg) src = firstConflict dst src := by
  induction src with
  | nil => rfl
  | cons hd tl ih =>
    obtain ⟨m, c⟩ := hd
    rw [keys_cons] at hnm
    simp only [List.mem_cons, not_or] at hnm
    have hc : containsKey (insertKV dst name cfg) m = containsKey dst m := by
      simp [containsKey, lookupKV_insertKV, hnm.1]
    simp [firstConflict, hc, ih hnm.2]

/-- Without force, the import loop bails exactly at the first source name
already present in the (conflict-free-so-far extended) destination. -/
theorem importLoop_conflict (cp : Location) (sc : Scope) (n : String)
    (src : List (String × CustomToolConfig)) :
    ∀ dst added, (keys src).Nodup → firstConflict dst src = some n →
      importLoop false cp sc dst src added = .error (.duplicateServer n cp sc) := by
  induction src with
  | nil =>
    intro dst added _ hconf
    simp [firstConflict] at hconf
  | cons hd tl ih =>
    intro dst added hnodup hconf
    obtain ⟨name, cfg⟩ := hd
    have hnodup' : name ∉ keys tl ∧ (keys tl).Nodup := by
      rw [keys_cons] at hnodup
      exact ⟨(List.nodup_cons.mp hnodup).1, (List.nodup_cons.mp hnodup).2⟩
    by_cases hc : containsKey dst name = true
    · have hn : n = name := by
        simp [firstConflict, hc] at hconf
        exact hconf.symm
      subst hn
      simp [importLoop, hc]
    · have hc' : containsKey dst name = false := by simpa using hc
      have hconf' : firstConflict dst tl = some n := by
        simpa [firstConflict, hc'] using hconf
      have hstep : firstConflict (insertKV dst name cfg) tl = some n := by
        rw [firstConflict_insertKV tl dst name cfg hnodup'.1]
        exact hconf'
      simpa [importLoop, hc'] using ih (insertKV dst name cfg) (added + 1) hnodup'.2 hstep

/-- With force, the import loop never bails: it folds every source entry
into the destination and counts them all. -/
theorem importLoop_force (cp : Location) (sc : Scope)
    (src : List (String × CustomToolConfig)) :
    ∀ dst added, importLoop true cp sc dst src added =
      .ok (mergeAll dst src, added + src.length) := by
  induction src with
  | nil => intro dst added; simp [importLoop, mergeAll]
  | cons hd tl ih =>
    intro dst added
    obtain ⟨name, cfg⟩ := hd
    have hml : mergeAll dst ((name, cfg) :: tl) = mergeAll (insertKV dst name cfg) tl := rfl
    have hn : added + 1 + tl.length = added + ((name, cfg) :: tl).length := by
      simp; omega
    rw [hml, ← hn]
    simpa [importLoop] using ih (insertKV dst name cfg) (added + 1)

/-- Lookup in the force-merged map: the source wins on collision, and
destination entries absent from the source are preserved. -/
theorem lookupKV_mergeAll (src : List (String × CustomToolConfig)) :
    ∀ dst key, (keys src).Nodup →
      lookupKV (mergeAll dst src) key =
        (match lookupKV src key with
         | some v => some v
         | none => lookupKV dst key) := by
  induction src with
  | nil => intro dst key _; simp [mergeAll, lookupKV]
  | cons hd tl ih =>
    intro dst key hnodup
    obtain ⟨name, cfg⟩ := hd
    have hnodup' : name ∉ keys tl ∧ (keys tl).Nodup := by
      rw [keys_cons] at hnodup
      exact ⟨(List.nodup_cons.mp hnodup).1, (List.nodup_cons.mp hnodup).2⟩
    have hml : mergeAll dst ((name, cfg) :: tl) = mergeAll (insertKV dst name cfg) tl := rfl
    rw [hml, ih _ key hnodup'.2]
    by_cases hk : name = key
    · subst hk
      have hnone : lookupKV tl name = none :=
        lookupKV_eq_none_of_not_mem_keys _ _ hnodup'.1
      simp [lookupKV, hnone, lookupKV_insertKV]
    · simp [lookupKV, hk, lookupKV_insertKV]

/-- Claim C2: Import without force, when some source name already exists in
the destination, fails with the duplicate-server error at the first
conflicting name in iteration order and leaves the file system — in
particular the persisted destination file — exactly as it was. -/
theorem import_conflict_aborts (fs : FS) (i : ImportArgs) (path : Location)
    (dcfg scfg : McpServerConfig) (n : String)
    (hresolve : resolve_scope_profile i.scope i.profile = .ok path)
    (hdst : fs.file path = .valid dcfg)
    (hsrc : fs.file i.file = .valid scfg)
    (hnodup : (keys scfg.mcp_servers).Nodup)
    (hconf : firstConflict dcfg.mcp_servers scfg.mcp_servers = some n)
    (hforce : i.force = false) :
    i.execute fs =
      (fs, .error (.duplicateServer n path (i.scope.getD Scope.workspace))) := by
  have hex : fs.fileExists path = true := by simp [FS.fileExists, hdst]
  have hens : ensure_config_file fs path = (fs, .ok dcfg) := by
    simp [ensure_config_file, hex, load_cfg, McpServerConfig.load_from_file, hdst]
  have hloadsrc : McpServerConfig.load_from_file fs i.file = .ok scfg := by
    simp [McpServerConfig.load_from_file, hsrc]
  have hloop := importLoop_conflict path (i.scope.getD Scope.workspace) n
    scfg.mcp_servers dcfg.mcp_servers 0 hnodup hconf
  simp [ImportArgs.execute, hresolve, hens, hloadsrc, hforce, hloop]

/-- Witness for C2 at a concrete destination already holding the one source
name. -/
theorem import_conflict_aborts_witness :
    ImportArgs.execute
      { file := Location.ext "s", scope := none, profile := none, force := false }
      { files := [(Location.ws, .valid (regW "a" "c1")),
                  (Location.ext "s", .valid (regW "a" "c2"))], profileDirs := [] } =
      ({ files := [(Location.ws, .valid (regW "a" "c1")),
                   (Location.ext "s", .valid (regW "a" "c2"))], profileDirs := [] },
       .error (.duplicateServer "a" Location.ws Scope.workspace)) :=
  import_conflict_aborts
    { files := [(Location.ws, .valid (regW "a" "c1")),
                (Location.ext "s", .valid (regW "a" "c2"))], profileDirs := [] }
    { file := Location.ext "s", scope := none, profile := none, force := false }
    Location.ws (regW "a" "c1") (regW "a" "c2") "a"
    rfl rfl rfl (by decide) (by decide) rfl

/-- Claim C10: Import with force merges every source entry into the
destination — the source definition winning on name collisions, destination
entries absent from the source preserved — and persists the merged registry
in a single save. -/
theorem import_force_merges (fs : FS) (i : ImportArgs) (path : Location)
    (dcfg scfg : McpServerConfig)
    (hresolve : resolve_scope_profile i.scope i.profile = .ok path)
    (hdst : fs.file path = .valid dcfg)
    (hsrc : fs.file i.file = .valid scfg)
    (hnodup : (keys scfg.mcp_servers).Nodup)
    (hforce : i.force = true) :
    i.execute fs =
      (({ dcfg with
          mcp_servers := mergeAll dcfg.mcp_servers scfg.mcp_servers }).save_to_file fs path,
       .ok scfg.mcp_servers.length) ∧
    ∀ key, lookupKV (mergeAll dcfg.mcp_servers scfg.mcp_servers) key =
      (match lookupKV scfg.mcp_servers key with
       | some v => some v
       | none => lookupKV dcfg.mcp_servers key) := by
  have hex : fs.fileExists path = true := by simp [FS.fileExists, hdst]
  have hens : ensure_config_file fs path = (fs, .ok dcfg) := by
    simp [ensure_config_file, hex, load_cfg, McpServerConfig.load_from_file, hdst]
  have hloadsrc : McpServerConfig.load_from_file fs i.file = .ok scfg := by
    simp [McpServerConfig.load_from_file, hsrc]
  have hloop := importLoop_force path (i.scope.getD Scope.workspace)
    scfg.mcp_servers dcfg.mcp_servers 0
  constructor
  · simp [ImportArgs.execute, hresolve, hens, hloadsrc, hforce, hloop]
  · intro key
    exact lookupKV_mergeAll scfg.mcp_servers dcfg.mcp_servers key hnodup

/-- Witness for C10: a forced import of one colliding entry overwrites it
and persists once. -/
theorem import_force_merges_witness :
    ImportArgs.execute
      { file := Location.ext "s", scope := none, profile := none, force := true }
      { files := [(Location.ws, .valid (regW "a" "c1")),
                  (Location.ext "s", .valid (regW "a" "c2"))], profileDirs := [] } =
      (({ regW "a" "c1" with
          mcp_servers := mergeAll (regW "a" "c1").mcp_servers (regW "a" "c2").mcp_servers
        }).save_to_file
        { files := [(Location.ws, .valid (regW "a" "c1")),
                    (Location.ext "s", .valid (regW "a" "c2"))], profileDirs := [] }
        Location.ws,
       .ok 1) :=
  (import_force_merges
    { files := [(Location.ws, .valid (regW "a" "c1")),
                (Location.ext "s", .valid (regW "a" "c2"))], profileDirs := [] }
    { file := Location.ext "s", scope := none, profile := none, force := true }
    Location.ws (regW "a" "c1") (regW "a" "c2")
    rfl rfl rfl (by decide) rfl).1

/-- Counterexample to C4 as stated: on a file system whose workspace file
exists but is malformed, the ensure-load path does not contain the decode
error — `ensure_config_file` returns it, and Add on that target fails
fatally with it instead of treating the registry as absent. -/
theorem ensure_malformed_contained_cex :
    (ensure_config_file { files := [(Location.ws, FileState.malformed)], profileDirs := [] }
        Location.ws).2 = .error (.decodeError Location.ws) ∧
    (AddArgs.execute
        { name := "x", command := "c", args := [], scope := none, profile := none,
          env := [], timeout := none, disabled := false, force := false }
        { files := [(Location.ws, FileState.malformed)], profileDirs := [] }).2 =
      .error (.decodeError Location.ws) := by
  exact ⟨rfl, rfl⟩

/-- Amended C4: an existing but malformed document on the ensure-load path
is a terminal error — `ensure_config_file` propagates the decode failure and
leaves the file system unchanged — while the same document is contained
(treated as absent) on the aggregation path. -/
theorem ensure_malformed_terminal (fs : FS) (path : Location)
    (hmal : fs.file path = .malformed) :
    ensure_config_file fs path = (fs, .error (.decodeError path)) ∧
    load_config_with_error_handling fs path = none := by
  have hex : fs.fileExists path = true := by simp [FS.fileExists, hmal]
  constructor
  · simp [ensure_config_file, hex, load_cfg, McpServerConfig.load_from_file, hmal]
  · simp [load_config_with_error_handling, hex, McpServerConfig.load_from_file, hmal]

/-- Witness for the amended C4 at a concrete malformed workspace file. -/
theorem ensure_malformed_terminal_witness :
    ensure_config_file { files := [(Location.ws, FileState.malformed)], profileDirs := [] }
      Location.ws =
      ({ files := [(Location.ws, FileState.malformed)], profileDirs := [] },
       .error (.decodeError Location.ws)) :=
  (ensure_malformed_terminal
    { files := [(Location.ws, FileState.malformed)], profileDirs := [] }
    Location.ws rfl).1

/-- Counterexample to C5 as stated: with an absent destination and a
malformed source, Import fails on the source read, yet the destination
workspace file — absent before the call — has been created by the ensure
step that the code runs first. -/
theorem import_destination_ensured_before_source_cex :
    FS.file { files := [(Location.ext "srcfile", FileState.malformed)], profileDirs := [] }
        Location.ws = FileState.absent ∧
    (ImportArgs.execute
        { file := Location.ext "srcfile", scope := none, profile := none, force := false }
        { files := [(Location.ext "srcfile", FileState.malformed)],
          profileDirs := [] }).2 =
      .error (.decodeError (Location.ext "srcfile")) ∧
    ((ImportArgs.execute
        { file := Location.ext "srcfile", scope := none, profile := none, force := false }
        { files := [(Location.ext "srcfile", FileState.malformed)],
          profileDirs := [] }).1).file Location.ws =
      FileState.valid McpServerConfig.default := by
  exact ⟨rfl, rfl, rfl⟩

/-- Amended C5: Import resolves and ensures the destination first and loads
the source only afterwards; a source read failure is terminal, but the
resulting file system is the destination-ensured one, so an absent
destination file has already been created when the source read fails. -/
theorem import_source_error_terminal (fs : FS) (i : ImportArgs) (path : Location)
    (dcfg : McpServerConfig) (e : McpError)
    (hresolve : resolve_scope_profile i.scope i.profile = .ok path)
    (hens : (ensure_config_file fs path).2 = .ok dcfg)
    (hsrc : McpServerConfig.load_from_file (ensure_config_file fs path).1 i.file =
      .error e) :
    i.execute fs = ((ensure_config_file fs path).1, .error e) := by
  obtain ⟨fs1, hfs1⟩ : ∃ fs1, ensure_config_file fs path = (fs1, .ok dcfg) :=
    ⟨(ensure_config_file fs path).1, by rw [← hens]⟩
  rw [hfs1] at hsrc
  dsimp only at hsrc
  rw [hfs1]
  simp [ImportArgs.execute, hresolve, hfs1, hsrc]

/-- Witness for the amended C5 at the concrete absent-destination,
malformed-source input. -/
theorem import_source_error_terminal_witness :
    ImportArgs.execute
      { file := Location.ext "srcfile", scope := none, profile := none, force := false }
      { files := [(Location.ext "srcfile", FileState.malformed)], profileDirs := [] } =
      ((ensure_config_file
          { files := [(Location.ext "srcfile", FileState.malformed)], profileDirs := [] }
          Location.ws).1,
       .error (.decodeError (Location.ext "srcfile"))) :=
  import_source_error_terminal
    { files := [(Location.ext "srcfile", FileState.malformed)], profileDirs := [] }
    { file := Location.ext "srcfile", scope := none, profile := none, force := false }
    Location.ws McpServerConfig.default
    (.decodeError (Location.ext "srcfile")) rfl rfl rfl

end McpVerify
